import Mathlib

/-!
Verification of the MoveCRM quote pricing and detection-reconciliation engine.

The definitions below are a shallow embedding of the Python source:
* `src/backend/src/routes/quotes.py` (`generate_quote_number`, `calculate_quote_pricing`),
* `src/backend/src/routes/detection.py` (`map_detections_to_catalog`, the
  `/text` and `/auto` reconciliation flows),
* `src/backend/src/utils/rate_limiter.py` (`check_rate_limit`).

Python `Decimal`/numeric values are modelled as `ℚ` (exact arithmetic),
nullable columns as `Option`, Python truthiness of optional numerics via
`truthy`, Python exceptions via `Except`, and SQL result sets as explicit
lists passed to the functions.
-/

namespace MoveCRM

/-- Python truthiness of an optional numeric value (`None` and `0` are falsy). -/
def truthy (x : Option ℚ) : Bool :=
  match x with
  | none => false
  | some v => v != 0

/-- Row of the `quote_items` table, restricted to the columns the engine reads
or writes (`quotes.py` and `detection.py`). -/
structure QuoteItem where
  item_catalog_id : Option ℕ
  detected_name : Option String
  quantity : ℚ
  cubic_feet : Option ℚ
  labor_hours : Option ℚ
  unit_price : Option ℚ
  total_price : Option ℚ
  confidence_score : Option ℚ
deriving DecidableEq

/-- Row of the `pricing_rules` table (columns read by `calculate_quote_pricing`). -/
structure PricingRule where
  rate_per_cubic_foot : ℚ
  labor_rate_per_hour : ℚ
  minimum_charge : ℚ
  distance_rate_per_mile : Option ℚ
deriving DecidableEq

/-- A quote together with its line items and the totals columns written by
`calculate_quote_pricing`. -/
structure Quote where
  quote_items : List QuoteItem
  distance_miles : Option ℚ
  total_cubic_feet : ℚ
  total_labor_hours : ℚ
  subtotal : ℚ
  tax_amount : ℚ
  total_amount : ℚ
deriving DecidableEq

/-- One step of the accumulation loop in `calculate_quote_pricing`
(`quotes.py` lines 39-45): running totals of cubic feet, labor hours and the
per-item `total_price` sum, each guarded by Python truthiness. -/
def accumItem (acc : ℚ × ℚ × ℚ) (item : QuoteItem) : ℚ × ℚ × ℚ :=
  let cf := if truthy item.cubic_feet then acc.1 + item.cubic_feet.getD 0 * item.quantity else acc.1
  let lh := if truthy item.labor_hours then acc.2.1 + item.labor_hours.getD 0 * item.quantity else acc.2.1
  let sp := if truthy item.total_price then acc.2.2 + item.total_price.getD 0 else acc.2.2
  (cf, lh, sp)

/-- The accumulation loop of `calculate_quote_pricing` over all line items. -/
def totalsOfItems (items : List QuoteItem) : ℚ × ℚ × ℚ :=
  items.foldl accumItem (0, 0, 0)

/-- `cubic_feet_cost` (`quotes.py` line 48). -/
def cubicCost (quote : Quote) (rule : PricingRule) : ℚ :=
  (totalsOfItems quote.quote_items).1 * rule.rate_per_cubic_foot

/-- `labor_cost` (`quotes.py` line 49). -/
def laborCost (quote : Quote) (rule : PricingRule) : ℚ :=
  (totalsOfItems quote.quote_items).2.1 * rule.labor_rate_per_hour

/-- `distance_cost` (`quotes.py` lines 50-53): nonzero only when both the
quote's distance and the rule's per-mile rate are truthy. -/
def distanceCost (quote : Quote) (rule : PricingRule) : ℚ :=
  if truthy quote.distance_miles && truthy rule.distance_rate_per_mile then
    quote.distance_miles.getD 0 * rule.distance_rate_per_mile.getD 0
  else 0

/-- `calculated_subtotal` before the minimum-charge floor (`quotes.py` line 55). -/
def computedSubtotal (quote : Quote) (rule : PricingRule) : ℚ :=
  cubicCost quote rule + laborCost quote rule + distanceCost quote rule

/-- Embedding of `calculate_quote_pricing` (`quotes.py` lines 33-71).
The loop's accumulated `total_price` sum (third component of `totalsOfItems`)
is computed but, as in the source, never used afterwards. -/
def calculate_quote_pricing (quote : Quote) (rule : PricingRule) : Quote :=
  let acc := totalsOfItems quote.quote_items
  let total_cubic_feet := acc.1
  let total_labor_hours := acc.2.1
  let calculated := computedSubtotal quote rule
  let calculated_subtotal := if calculated < rule.minimum_charge then rule.minimum_charge else calculated
  let tax_rate : ℚ := 0.085
  let tax := calculated_subtotal * tax_rate
  { quote with
      total_cubic_feet := total_cubic_feet
      total_labor_hours := total_labor_hours
      subtotal := calculated_subtotal
      tax_amount := tax
      total_amount := calculated_subtotal + tax }

/-- The price-independent core of a line item: the fields `calculate_quote_pricing`
uses for volume and labor aggregation. -/
def itemCore (i : QuoteItem) : ℚ × Option ℚ × Option ℚ :=
  (i.quantity, i.cubic_feet, i.labor_hours)

/-- Embedding of Python `str.lower()` as a character-wise map. -/
def lowerStr (s : String) : String :=
  ⟨s.data.map Char.toLower⟩

/-- Embedding of Python's containment test `a in b` on strings:
`a` occurs as a contiguous substring of `b`.  Matches Python in that the
empty string is contained in every string. -/
def likeQ : List Char → List Char → Bool
  | [], _ => true
  | _ :: _, [] => false
  | a :: as, b :: bs => a == b && likeQ as bs

/-- Contiguous-substring test over character lists (Python `needle in hay`). -/
def subStr : List Char → List Char → Bool
  | n, [] => n.isEmpty
  | n, h :: t => likeQ n (h :: t) || subStr n t

/-- Row of the `item_catalog` table (columns read by
`map_detections_to_catalog`). -/
structure ItemCatalog where
  id : ℕ
  name : String
  aliases : List String
  category : Option String
  base_cubic_feet : Option ℚ
  labor_multiplier : Option ℚ
  is_active : Bool
deriving DecidableEq

/-- One detection returned by the vision service (`detection.get(...)`
accesses in `detection.py` lines 52-54 and 80-84). -/
structure Detection where
  name : Option String
  confidence : Option ℚ
  quantity : Option ℚ
  bbox : Option String
deriving DecidableEq

/-- The `mapped_item` dictionary built in `detection.py` lines 80-90. -/
structure MappedItem where
  detected_name : Option String
  confidence_score : ℚ
  quantity : ℚ
  bounding_box : Option String
  catalog_item_id : Option ℕ
  catalog_item_name : Option String
  cubic_feet : Option ℚ
  labor_multiplier : ℚ
  category : Option String
deriving DecidableEq

/-- The inner alias loop of `map_detections_to_catalog` (`detection.py`
lines 68-77): an exact (case-insensitive) alias match sets the candidate to
weight `0.9` and breaks out of the alias loop; a substring match in either
direction sets weight `0.7` only when the running best weight is below `0.7`. -/
def aliasScan (label : String) (e : ItemCatalog) :
    List String → Option ItemCatalog × ℚ → Option ItemCatalog × ℚ
  | [], st => st
  | a :: rest, st =>
    if lowerStr a == label then (some e, 0.9)
    else if subStr label.data (lowerStr a).data || subStr (lowerStr a).data label.data then
      aliasScan label e rest (if st.2 < 0.7 then (some e, 0.7) else st)
    else aliasScan label e rest st

/-- The outer catalog loop of `map_detections_to_catalog` (`detection.py`
lines 60-77): an exact (case-insensitive) name match returns that entry with
weight `1.0`, breaking the scan; otherwise the alias loop updates the running
candidate and the scan continues. -/
def catalogScan (label : String) :
    List ItemCatalog → Option ItemCatalog × ℚ → Option ItemCatalog × ℚ
  | [], st => st
  | e :: rest, st =>
    if lowerStr e.name == label then (some e, 1)
    else catalogScan label rest (aliasScan label e e.aliases st)

/-- Best catalog candidate for one detected label: the `matched_item` /
`best_match_score` pair after the scan in `detection.py` lines 56-77. -/
def bestCatalogMatch (label : String) (items : List ItemCatalog) :
    Option ItemCatalog × ℚ :=
  catalogScan label items (none, 0)

/-- Build the `mapped_item` dictionary for one detection
(`detection.py` lines 52-90). -/
def mapOneDetection (catalog_items : List ItemCatalog) (d : Detection) : MappedItem :=
  let label := lowerStr (d.name.getD "")
  let m := bestCatalogMatch label catalog_items
  { detected_name := d.name
    confidence_score := d.confidence.getD 0
    quantity := d.quantity.getD 1
    bounding_box := d.bbox
    catalog_item_id := m.1.map (fun e => e.id)
    catalog_item_name := m.1.map (fun e => e.name)
    cubic_feet :=
      match m.1 with
      | some e => if truthy e.base_cubic_feet then e.base_cubic_feet else none
      | none => none
    labor_multiplier :=
      match m.1 with
      | some e => if truthy e.labor_multiplier then e.labor_multiplier.getD 0 else 1
      | none => 1
    category :=
      match m.1 with
      | some e => e.category
      | none => some "Unknown" }

/-- Embedding of `map_detections_to_catalog` (`detection.py` lines 42-94);
the tenant's catalog rows are passed explicitly and filtered to active ones
as in the query on lines 47-50. -/
def map_detections_to_catalog (detections : List Detection)
    (catalog : List ItemCatalog) : List MappedItem :=
  let catalog_items := catalog.filter (fun e => e.is_active)
  detections.map (mapOneDetection catalog_items)

/-- Row of the `detection_jobs` table, restricted to the columns the
reconciliation flow writes (`detection.py`).  `completed_at` is a timestamp
modelled as an abstract instant. -/
structure DetectionJob where
  status : String
  results : Option (List Detection × List MappedItem)
  error_message : Option String
  completed_at : Option ℕ
deriving DecidableEq

/-- JSON body returned by the YOLOE vision service
(`result.get('success')`, `result.get('detections', [])`,
`result.get('error', 'Unknown error')`). -/
structure VisionResp where
  success : Bool
  detections : List Detection
  error : Option String
deriving DecidableEq

/-- Outcome of `call_yoloe_service`: either a parsed JSON response or a
raised exception (network error, timeout, ...). -/
inductive VisionOutcome where
  | resp (r : VisionResp)
  | exn (msg : String)
deriving DecidableEq

/-- A detection job's status is terminal when it is `completed` or `failed`. -/
def terminalStatus (s : String) : Bool :=
  s == "completed" || s == "failed"

/-- The `QuoteItem(...)` constructed from a mapped item in the auto-add loops
(`detection.py` lines 179-186 and 287-294): labor hours and prices are left
at their column defaults (null). -/
def mkQuoteItemFromMapped (m : MappedItem) : QuoteItem :=
  { item_catalog_id := m.catalog_item_id
    detected_name := m.detected_name
    quantity := m.quantity
    cubic_feet := m.cubic_feet
    labor_hours := none
    unit_price := none
    total_price := none
    confidence_score := some m.confidence_score }

/-- The auto-add loop (`detection.py` lines 177-187 / 285-295): a mapped item
is materialized as a line item exactly when it has a catalog match (truthy
`catalog_item_id`) and its detection confidence strictly exceeds the
threshold. -/
def autoAddItems (thr : ℚ) (mapped : List MappedItem) : List QuoteItem :=
  (mapped.filter (fun m => m.catalog_item_id.isSome && decide (thr < m.confidence_score))).map
    mkQuoteItemFromMapped

/-- Core of the `/detect/text` and `/detect/auto` reconciliation flows
(`detection.py` lines 156-206 and 265-314): the job is moved to `processing`,
the vision outcome is examined, and on success the detections are mapped to
the catalog, the job is completed with `completed_at` set, and (when
`autoAdd` holds) qualifying items are added to the quote; on a failure
response or an exception the job is marked `failed` with the error message
and no items are created.  The quote row itself is returned unchanged: the
detection routes never recompute its totals. -/
def processDetectionJob (now : ℕ) (catalog : List ItemCatalog) (autoAdd : Bool)
    (thr : ℚ) (quote : Quote) (job : DetectionJob) (outcome : VisionOutcome) :
    DetectionJob × List QuoteItem × Quote :=
  let job1 := { job with status := "processing" }
  match outcome with
  | .exn msg =>
    ({ job1 with status := "failed", error_message := some msg }, [], quote)
  | .resp r =>
    if r.success then
      let detections := r.detections
      let mapped := map_detections_to_catalog detections catalog
      let job2 := { job1 with
                      status := "completed"
                      results := some (detections, mapped)
                      completed_at := some now }
      let newItems := if autoAdd then autoAddItems thr mapped else []
      (job2, newItems, quote)
    else
      ({ job1 with
           status := "failed"
           error_message := some (r.error.getD "Unknown error") }, [], quote)

/-- The `/detect/text` flow (`detection.py` lines 96-210): auto-add is
controlled by the request's `auto_add_items` flag and the threshold is `0.7`. -/
def detectTextFlow (now : ℕ) (catalog : List ItemCatalog) (auto_add_items : Bool)
    (quote : Quote) (job : DetectionJob) (outcome : VisionOutcome) :
    DetectionJob × List QuoteItem × Quote :=
  processDetectionJob now catalog auto_add_items 0.7 quote job outcome

/-- The `/detect/auto` flow (`detection.py` lines 212-318): high-confidence
items are always auto-added, with threshold `0.8`. -/
def detectAutoFlow (now : ℕ) (catalog : List ItemCatalog)
    (quote : Quote) (job : DetectionJob) (outcome : VisionOutcome) :
    DetectionJob × List QuoteItem × Quote :=
  processDetectionJob now catalog true 0.8 quote job outcome

/-- Python's `max_requests or RATE_LIMIT_MAX_REQUESTS` defaulting
(`rate_limiter.py` line 26): `None` and `0` both fall back to 100. -/
def effectiveLimit (m : Option ℕ) : ℕ :=
  match m with
  | none => 100
  | some v => if v = 0 then 100 else v

/-- Embedding of one `check_rate_limit` call for a fixed key
(`rate_limiter.py` lines 39-68).  The store maps a window start to the
counter row's `request_count` for that (tenant, ip, endpoint) key; a missing
row is created with count 1 and the call is allowed, otherwise the call is
denied when the count has reached the limit and allowed (incrementing the
count) when not. -/
def check_rate_limit (maxR : ℕ) (store : ℕ → Option ℕ) (w : ℕ) :
    Bool × (ℕ → Option ℕ) :=
  match store w with
  | none => (true, fun w2 => if w2 = w then some 1 else store w2)
  | some c =>
    if maxR ≤ c then (false, store)
    else (true, fun w2 => if w2 = w then some (c + 1) else store w2)

/-- A sequential run of `n` `check_rate_limit` calls for the same key and the
same window, threading the counter store. -/
def runCalls (maxR w : ℕ) : ℕ → (ℕ → Option ℕ) → List Bool
  | 0, _ => []
  | n + 1, store =>
    let r := check_rate_limit maxR store w
    r.1 :: runCalls maxR w n r.2

/-- The body of `check_rate_limit` with its fallible storage operations made
explicit (`rate_limiter.py` lines 24-68): looking up the counter row and
committing may raise, and a raised error aborts the body. -/
def rateLimitBody (maxR : ℕ) (lookupRes : Except String (Option ℕ))
    (commitRes : Except String Unit) : Except String Bool := do
  let cur ← lookupRes
  match cur with
  | none => do
    let _ ← commitRes
    pure true
  | some c =>
    if maxR ≤ c then pure false
    else do
      let _ ← commitRes
      pure true

/-- `check_rate_limit` including its `try/except` wrapper
(`rate_limiter.py` lines 24-73): any internal error yields `True` (allow). -/
def checkRateLimitGuarded (maxR : ℕ) (lookupRes : Except String (Option ℕ))
    (commitRes : Except String Unit) : Bool :=
  match rateLimitBody maxR lookupRes commitRes with
  | .ok b => b
  | .error _ => true

/-- Decimal digit characters, used to zero-pad quote sequence numbers. -/
def digitChar4 : ℕ → Char
  | 0 => '0'
  | 1 => '1'
  | 2 => '2'
  | 3 => '3'
  | 4 => '4'
  | 5 => '5'
  | 6 => '6'
  | 7 => '7'
  | 8 => '8'
  | 9 => '9'
  | _ + 10 => '*'

/-- Embedding of Python's `f"{n:04d}"` for a natural number: the four-digit
zero-padded decimal representation below 10000, the plain decimal
representation from 10000 on. -/
def pad4 (n : ℕ) : String :=
  if n < 10000 then
    ⟨[digitChar4 (n / 1000), digitChar4 (n / 100 % 10),
      digitChar4 (n / 10 % 10), digitChar4 (n % 10)]⟩
  else toString n

/-- Lexicographic comparison of character lists, the order by which
`ORDER BY quote_number DESC` ranks quote numbers. -/
def charsLt : List Char → List Char → Bool
  | [], [] => false
  | [], _ :: _ => true
  | _ :: _, [] => false
  | a :: as, b :: bs => if a < b then true else if b < a then false else charsLt as bs

/-- Keep the larger of two strings under `charsLt`. -/
def maxStep (a b : String) : String :=
  if charsLt a.data b.data then b else a

/-- Maximum of a list of strings under `charsLt`: the first row of
`ORDER BY quote_number DESC`. -/
def maxStr (l : List String) : Option String :=
  match l with
  | [] => none
  | x :: xs => some (xs.foldl maxStep x)

/-- Characters of a string from position `n` on (Python's `s[n:]`). -/
def sliceFrom (s : String) (n : ℕ) : String :=
  ⟨s.data.drop n⟩

/-- Value of a decimal digit character, `none` for non-digits. -/
def digitVal? (c : Char) : Option ℕ :=
  if '0' ≤ c && c ≤ '9' then some (c.toNat - '0'.toNat) else none

/-- Accumulating decimal parse of a character list; fails on a non-digit. -/
def parseDigits : List Char → ℕ → Option ℕ
  | [], acc => some acc
  | c :: t, acc =>
    match digitVal? c with
    | some d => parseDigits t (acc * 10 + d)
    | none => none

/-- Embedding of Python's `int(s)` on the (non-negative) strings this code
path produces: the parsed number for a nonempty all-digit string, `none`
(a `ValueError`) for the empty string or on a non-digit character. -/
def parseNat? (s : String) : Option ℕ :=
  match s.data with
  | [] => none
  | c :: t => parseDigits (c :: t) 0

/-- Embedding of `generate_quote_number` (`quotes.py` lines 10-31) for a fixed
year-month prefix: among the tenant's existing quote numbers, those matching
`LIKE 'prefix%'` are ranked descending; the trailing sequence of the highest
is parsed and incremented (a parse failure restarts at 1, as does an empty
candidate set), and the result is the prefix plus the zero-padded sequence. -/
def generate_quote_number (pfx : String) (existing : List String) : String :=
  let cands := existing.filter (fun q => likeQ pfx.data q.data)
  match maxStr cands with
  | none => pfx ++ pad4 1
  | some latest =>
    match parseNat? (sliceFrom latest pfx.length) with
    | some v => pfx ++ pad4 (v + 1)
    | none => pfx ++ pad4 1

/-- An event in an interleaved execution of concurrent quote creations:
caller `i` either runs `generate_quote_number` against the currently
committed rows, or commits its previously generated quote row. -/
inductive GenAct where
  | read (i : ℕ)
  | commit (i : ℕ)
deriving DecidableEq

/-- State of an interleaved execution: the committed quote numbers, the
numbers generated but not yet committed (per caller), and the numbers each
caller has received from the generator. -/
structure GenState where
  db : List String
  pend : List (ℕ × String)
  outs : List (ℕ × String)
deriving DecidableEq

/-- One step of the interleaved execution: a read runs the generator against
the committed rows only (as the `Quote.query` scan does), a commit inserts
the caller's generated number into the committed rows. -/
def genStep (pfx : String) (st : GenState) : GenAct → GenState
  | .read i =>
    let n := generate_quote_number pfx st.db
    { st with pend := (i, n) :: st.pend, outs := (i, n) :: st.outs }
  | .commit i =>
    match st.pend.lookup i with
    | some n => { st with db := n :: st.db, pend := st.pend.filter (fun p => p.1 != i) }
    | none => st

/-- Run a schedule of interleaved generator events. -/
def runGen (pfx : String) (acts : List GenAct) (st : GenState) : GenState :=
  acts.foldl (genStep pfx) st

/-- The pricing rule of the spec's worked scenarios (§8). -/
def scenarioRule : PricingRule :=
  { rate_per_cubic_foot := 8.5
    labor_rate_per_hour := 85
    minimum_charge := 150
    distance_rate_per_mile := some 2.5 }

/-- A quote whose line items total 100 cubic feet and 5 labor hours, with a
20-mile distance (first pricing scenario). -/
def scenarioQuoteBig : Quote :=
  { quote_items := [{ item_catalog_id := none
                      detected_name := none
                      quantity := 1
                      cubic_feet := some 100
                      labor_hours := some 5
                      unit_price := none
                      total_price := none
                      confidence_score := none }]
    distance_miles := some 20
    total_cubic_feet := 0
    total_labor_hours := 0
    subtotal := 0
    tax_amount := 0
    total_amount := 0 }

/-- A quote whose line items total 5 cubic feet and 0.5 labor hours, with
zero distance (second pricing scenario). -/
def scenarioQuoteSmall : Quote :=
  { quote_items := [{ item_catalog_id := none
                      detected_name := none
                      quantity := 1
                      cubic_feet := some 5
                      labor_hours := some 0.5
                      unit_price := none
                      total_price := none
                      confidence_score := none }]
    distance_miles := some 0
    total_cubic_feet := 0
    total_labor_hours := 0
    subtotal := 0
    tax_amount := 0
    total_amount := 0 }

/-- The catalog entry of the matcher scenario: `Sofa` with aliases `Couch`
and `Sectional`, parametrized by its base volume. -/
def sofaEntry (base : ℚ) : ItemCatalog :=
  { id := 1
    name := "Sofa"
    aliases := ["Couch", "Sectional"]
    category := some "Furniture"
    base_cubic_feet := some base
    labor_multiplier := some 1
    is_active := true }

/-! ### Theorems -/

/-- The volume and labor components of the accumulation loop depend only on
the price-independent core of each line item; the third (price) component is
not constrained. -/
theorem foldl_accumItem_core_eq :
    ∀ (l1 l2 : List QuoteItem), l1.map itemCore = l2.map itemCore →
    ∀ (acc1 acc2 : ℚ × ℚ × ℚ), acc1.1 = acc2.1 → acc1.2.1 = acc2.2.1 →
    (l1.foldl accumItem acc1).1 = (l2.foldl accumItem acc2).1 ∧
    (l1.foldl accumItem acc1).2.1 = (l2.foldl accumItem acc2).2.1 := by
  intro l1
  induction l1 with
  | nil =>
    intro l2 hmap acc1 acc2 h1 h2
    cases l2 with
    | nil => exact ⟨h1, h2⟩
    | cons b t => simp at hmap
  | cons a t ih =>
    intro l2 hmap acc1 acc2 h1 h2
    cases l2 with
    | nil => simp at hmap
    | cons b t2 =>
      simp only [List.map_cons, List.cons.injEq] at hmap
      obtain ⟨hcore, htail⟩ := hmap
      have hq : a.quantity = b.quantity := congrArg Prod.fst hcore
      have hcf : a.cubic_feet = b.cubic_feet := congrArg (fun p => p.2.1) hcore
      have hlh : a.labor_hours = b.labor_hours := congrArg (fun p => p.2.2) hcore
      refine ih t2 htail _ _ ?_ ?_
      · simp only [accumItem, hq, hcf, h1]
      · simp only [accumItem, hq, hlh, h2]

/-- C4: for every quote (set of line items and distance) and every pricing
rule, the subtotal computed by `calculate_quote_pricing` equals
`max (cubic_cost + labor_cost + distance_cost) minimum_charge`; hence the
subtotal is at least the minimum charge, and when the computed cost exceeds
the minimum the minimum never reduces it. -/
theorem claim_C4 (q : Quote) (r : PricingRule) :
    (calculate_quote_pricing q r).subtotal = max (computedSubtotal q r) r.minimum_charge ∧
    r.minimum_charge ≤ (calculate_quote_pricing q r).subtotal ∧
    (r.minimum_charge < computedSubtotal q r →
      (calculate_quote_pricing q r).subtotal = computedSubtotal q r) := by
  simp only [calculate_quote_pricing]
  by_cases h : computedSubtotal q r < r.minimum_charge
  · rw [if_pos h]
    exact ⟨(max_eq_right h.le).symm, le_refl _,
      fun h2 => absurd (h.trans h2) (lt_irrefl _)⟩
  · rw [if_neg h]
    push_neg at h
    exact ⟨(max_eq_left h).symm, h, fun _ => rfl⟩

/-- Witness for `claim_C4` at the second pricing scenario, where the computed
cost 67.50 lies below the minimum charge 150.00. -/
theorem claim_C4_witness :
    (calculate_quote_pricing scenarioQuoteSmall scenarioRule).subtotal =
      max (computedSubtotal scenarioQuoteSmall scenarioRule) scenarioRule.minimum_charge ∧
    scenarioRule.minimum_charge ≤
      (calculate_quote_pricing scenarioQuoteSmall scenarioRule).subtotal := by
  have h := claim_C4 scenarioQuoteSmall scenarioRule
  exact ⟨h.1, h.2.1⟩

/-- C5: the first pricing scenario, computed exactly: cubic cost 850, labor
cost 425, distance cost 50, subtotal 1325, tax 112.625 (rate 0.085), total
1437.625. -/
theorem claim_C5 :
    cubicCost scenarioQuoteBig scenarioRule = 850 ∧
    laborCost scenarioQuoteBig scenarioRule = 425 ∧
    distanceCost scenarioQuoteBig scenarioRule = 50 ∧
    (calculate_quote_pricing scenarioQuoteBig scenarioRule).subtotal = 1325 ∧
    (calculate_quote_pricing scenarioQuoteBig scenarioRule).tax_amount = 112.625 ∧
    (calculate_quote_pricing scenarioQuoteBig scenarioRule).total_amount = 1437.625 := by
  norm_num [calculate_quote_pricing, computedSubtotal, cubicCost, laborCost, distanceCost,
    totalsOfItems, accumItem, truthy, scenarioQuoteBig, scenarioRule]

/-- C10: the computed quote totals depend only on each line item's quantity,
cubic feet and labor hours (and the quote's distance); the per-item price
fields never influence them — the internal sum of `total_price` is
discarded. -/
theorem claim_C10 (q1 q2 : Quote) (r : PricingRule)
    (hitems : q1.quote_items.map itemCore = q2.quote_items.map itemCore)
    (hdist : q1.distance_miles = q2.distance_miles) :
    (calculate_quote_pricing q1 r).total_cubic_feet =
      (calculate_quote_pricing q2 r).total_cubic_feet ∧
    (calculate_quote_pricing q1 r).total_labor_hours =
      (calculate_quote_pricing q2 r).total_labor_hours ∧
    (calculate_quote_pricing q1 r).subtotal = (calculate_quote_pricing q2 r).subtotal ∧
    (calculate_quote_pricing q1 r).tax_amount = (calculate_quote_pricing q2 r).tax_amount ∧
    (calculate_quote_pricing q1 r).total_amount =
      (calculate_quote_pricing q2 r).total_amount := by
  obtain ⟨hcf, hlh⟩ := foldl_accumItem_core_eq q1.quote_items q2.quote_items hitems
    (0, 0, 0) (0, 0, 0) rfl rfl
  have hcubic : cubicCost q1 r = cubicCost q2 r := by
    simp only [cubicCost, totalsOfItems, hcf]
  have hlabor : laborCost q1 r = laborCost q2 r := by
    simp only [laborCost, totalsOfItems, hlh]
  have hdc : distanceCost q1 r = distanceCost q2 r := by
    simp only [distanceCost, hdist]
  have hsub : computedSubtotal q1 r = computedSubtotal q2 r := by
    simp only [computedSubtotal, hcubic, hlabor, hdc]
  simp only [calculate_quote_pricing, totalsOfItems, hcf, hlh, hsub]
  exact ⟨trivial, trivial, trivial, trivial, trivial⟩

/-- Witness for `claim_C10`: two single-item quotes agreeing on quantity,
cubic feet and labor hours but with different unit and total prices get
identical computed totals. -/
theorem claim_C10_witness :
    (calculate_quote_pricing
        { quote_items := [⟨none, none, 2, some 3, some 1, some 99, some 999, none⟩]
          distance_miles := some 4
          total_cubic_feet := 0, total_labor_hours := 0
          subtotal := 0, tax_amount := 0, total_amount := 0 } scenarioRule).subtotal =
    (calculate_quote_pricing
        { quote_items := [⟨none, none, 2, some 3, some 1, none, some 5, none⟩]
          distance_miles := some 4
          total_cubic_feet := 0, total_labor_hours := 0
          subtotal := 0, tax_amount := 0, total_amount := 0 } scenarioRule).subtotal := by
  exact (claim_C10 _ _ scenarioRule (by norm_num [itemCore]) rfl).2.2.1

/-- A run of `check_rate_limit` calls starting from a counter row with count
`c` allows exactly the calls made while the count is below the limit. -/
theorem runCalls_from_count (maxR w : ℕ) :
    ∀ (n : ℕ) (store : ℕ → Option ℕ) (c : ℕ), store w = some c →
    runCalls maxR w n store = (List.range n).map (fun i => decide (c + i < maxR)) := by
  intro n
  induction n with
  | zero => intro store c _; simp [runCalls]
  | succ m ih =>
    intro store c hc
    by_cases h : maxR ≤ c
    · have hstep : check_rate_limit maxR store w = (false, store) := by
        simp [check_rate_limit, hc, h]
      have hrest := ih store c hc
      simp only [runCalls, hstep, hrest, List.range_succ_eq_map, List.map_cons, List.map_map]
      congr 1
      · simpa using h
      · refine List.map_congr_left ?_
        intro i _
        simp only [Function.comp_apply]
        have h1 : ¬ c + i < maxR := by omega
        have h2 : ¬ c + (i + 1) < maxR := by omega
        simp [h1, h2]
    · push_neg at h
      have hstep : check_rate_limit maxR store w =
          (true, fun w2 => if w2 = w then some (c + 1) else store w2) := by
        simp [check_rate_limit, hc, Nat.not_le.mpr h]
      have hrest := ih (fun w2 => if w2 = w then some (c + 1) else store w2) (c + 1) (by simp)
      simp only [runCalls, hstep, hrest, List.range_succ_eq_map, List.map_cons, List.map_map]
      congr 1
      · simpa using h
      · refine List.map_congr_left ?_
        intro i _
        simp only [Function.comp_apply]
        have : c + 1 + i = c + (i + 1) := by omega
        rw [this]

/-- C8: for a key with no counter row in the current window, a sequential run
of `check_rate_limit` calls allows exactly the first `max_requests` calls and
denies every later call of the window (so the `(max_requests + 1)`-th call is
denied); moreover the first call of any window with no row yet is allowed
regardless of other windows' counts, and the effective limit (after the
`or`-defaulting of the argument) is always positive, with 100 as default. -/
theorem claim_C8 (maxR : ℕ) (store : ℕ → Option ℕ) (w n : ℕ)
    (hpos : 0 < maxR) (hfresh : store w = none) :
    runCalls maxR w n store = (List.range n).map (fun i => decide (i < maxR)) ∧
    (∀ (store2 : ℕ → Option ℕ) (w2 : ℕ), store2 w2 = none →
      (check_rate_limit maxR store2 w2).1 = true) ∧
    (∀ m : Option ℕ, 0 < effectiveLimit m) ∧ effectiveLimit none = 100 := by
  refine ⟨?_, ?_, ?_, rfl⟩
  · cases n with
    | zero => simp [runCalls]
    | succ m =>
      have hstep : check_rate_limit maxR store w =
          (true, fun w2 => if w2 = w then some 1 else store w2) := by
        simp [check_rate_limit, hfresh]
      have hrest := runCalls_from_count maxR w m
        (fun w2 => if w2 = w then some 1 else store w2) 1 (by simp)
      simp only [runCalls, hstep, hrest, List.range_succ_eq_map, List.map_cons, List.map_map]
      congr 1
      · simp [hpos]
      · refine List.map_congr_left ?_
        intro i _
        simp only [Function.comp_apply]
        have : 1 + i = i + 1 := by omega
        rw [this]
  · intro store2 w2 h2
    simp [check_rate_limit, h2]
  · intro m
    cases m with
    | none => simp [effectiveLimit]
    | some v =>
      by_cases hv : v = 0
      · simp [effectiveLimit, hv]
      · simp only [effectiveLimit, if_neg hv]
        omega

/-- Witness for `claim_C8`: with limit 2 and an empty store, four sequential
calls in one window yield allow, allow, deny, deny. -/
theorem claim_C8_witness :
    runCalls 2 0 4 (fun _ => none) = [true, true, false, false] := by
  have h := (claim_C8 2 (fun _ => none) 0 4 (by norm_num) rfl).1
  rw [h]
  decide

/-- C9: whenever the body of `check_rate_limit` fails with an internal error
(storage lookup or commit failure), the guarded function returns `true`
(allowed) instead of denying or propagating the error. -/
theorem claim_C9 (maxR : ℕ) (lookupRes : Except String (Option ℕ))
    (commitRes : Except String Unit)
    (herr : (rateLimitBody maxR lookupRes commitRes).isOk = false) :
    checkRateLimitGuarded maxR lookupRes commitRes = true := by
  unfold checkRateLimitGuarded
  cases h : rateLimitBody maxR lookupRes commitRes with
  | ok b => rw [h] at herr; simp [Except.isOk, Except.toBool] at herr
  | error e => rfl

/-- Witness for `claim_C9`: a failing storage lookup (the body errors) still
yields an allowed request. -/
theorem claim_C9_witness :
    (rateLimitBody 100 (.error "db down") (.ok ())).isOk = false ∧
    checkRateLimitGuarded 100 (.error "db down") (.ok ()) = true := by
  have herr : (rateLimitBody 100 (.error "db down") (.ok ())).isOk = false := rfl
  exact ⟨herr, claim_C9 100 (.error "db down") (.ok ()) herr⟩

/-- C2 counterexample: a reconciliation in which the vision service reports
failure leaves the job in the terminal status `failed` with `completed_at`
still null, so `completed_at` is not set on every terminal transition. -/
theorem claim_C2_cex :
    terminalStatus (processDetectionJob 5 [] false 0.7 scenarioQuoteBig
      ⟨"pending", none, none, none⟩ (.resp ⟨false, [], some "vision failed"⟩)).1.status = true ∧
    (processDetectionJob 5 [] false 0.7 scenarioQuoteBig
      ⟨"pending", none, none, none⟩ (.resp ⟨false, [], some "vision failed"⟩)).1.status = "failed" ∧
    (processDetectionJob 5 [] false 0.7 scenarioQuoteBig
      ⟨"pending", none, none, none⟩ (.resp ⟨false, [], some "vision failed"⟩)).1.completed_at
      = none := by
  refine ⟨?_, rfl, rfl⟩
  decide

/-- C2 amended: after any reconciliation of a job that enters with a null
`completed_at`, the timestamp is set if and only if the job's status is
`completed`; a job that transitions to `failed` keeps `completed_at` null. -/
theorem claim_C2 (now : ℕ) (catalog : List ItemCatalog) (autoAdd : Bool) (thr : ℚ)
    (quote : Quote) (job : DetectionJob) (outcome : VisionOutcome)
    (h : job.completed_at = none) :
    ((processDetectionJob now catalog autoAdd thr quote job outcome).1.completed_at).isSome
      = true ↔
    (processDetectionJob now catalog autoAdd thr quote job outcome).1.status = "completed" := by
  cases outcome with
  | exn msg => simp [processDetectionJob, h]
  | resp r =>
    by_cases hs : r.success
    · simp [processDetectionJob, hs]
    · simp [processDetectionJob, hs, h]

/-- Witness for `claim_C2`: a job entering reconciliation with null
`completed_at` and an exception outcome. -/
theorem claim_C2_witness :
    (⟨"pending", none, none, none⟩ : DetectionJob).completed_at = none ∧
    (((processDetectionJob 5 [] false 0.7 scenarioQuoteBig ⟨"pending", none, none, none⟩
        (.exn "io error")).1.completed_at).isSome = true ↔
      (processDetectionJob 5 [] false 0.7 scenarioQuoteBig ⟨"pending", none, none, none⟩
        (.exn "io error")).1.status = "completed") :=
  ⟨rfl, claim_C2 5 [] false 0.7 scenarioQuoteBig ⟨"pending", none, none, none⟩
    (.exn "io error") rfl⟩

/-- Evaluation helper: the active-entry filter keeps the scenario entry. -/
theorem filterActive_sofa (b : ℚ) :
    List.filter (fun e => e.is_active) [sofaEntry b] = [sofaEntry b] := rfl

/-- Evaluation helper: the label `couch` alias-matches the scenario entry at
weight 0.9. -/
theorem bestMatch_couch_sofa (b : ℚ) :
    bestCatalogMatch "couch" [sofaEntry b] = (some (sofaEntry b), 0.9) := by
  have h1 : lowerStr "Sofa" = "sofa" := by decide
  have h2 : lowerStr "Couch" = "couch" := by decide
  have hne : ("sofa" : String) ≠ "couch" := by decide
  simp only [bestCatalogMatch, catalogScan, aliasScan, sofaEntry] at *
  simp only [h1, h2]
  norm_num [hne]

/-- Evaluation helper: mapping the detection `couch` against the scenario
catalog resolves the entry's id, name, base volume and category. -/
theorem mapOne_couch_sofa (b : ℚ) (hb : b ≠ 0) :
    mapOneDetection [sofaEntry b] ⟨some "couch", some 0.95, none, none⟩ =
      ⟨some "couch", 0.95, 1, none, some 1, some "Sofa", some b, 1, some "Furniture"⟩ := by
  have hc : lowerStr "couch" = "couch" := by decide
  simp only [mapOneDetection, Option.getD_some, hc, bestMatch_couch_sofa]
  norm_num [sofaEntry, truthy, hb]

/-- Evaluation helper: the mapped-item list for the scenario detection. -/
theorem mapDetections_couch_sofa :
    map_detections_to_catalog [⟨some "couch", some 0.95, none, none⟩] [sofaEntry 35] =
      [⟨some "couch", 0.95, 1, none, some 1, some "Sofa", some 35, 1, some "Furniture"⟩] := by
  simp only [map_detections_to_catalog, filterActive_sofa, List.map_cons, List.map_nil]
  rw [mapOne_couch_sofa 35 (by norm_num)]

/-- Evaluation helper: the auto-added line items of the scenario text-flow
reconciliation. -/
theorem textFlowItems_couch_sofa :
    (detectTextFlow 5 [sofaEntry 35] true scenarioQuoteBig ⟨"pending", none, none, none⟩
        (.resp ⟨true, [⟨some "couch", some 0.95, none, none⟩], none⟩)).2.1
      = [⟨some 1, some "couch", 1, some 35, none, none, none, some 0.95⟩] := by
  simp only [detectTextFlow, processDetectionJob, mapDetections_couch_sofa]
  norm_num [autoAddItems, mkQuoteItemFromMapped]

/-- C3 counterexample: a successful auto-add reconciliation materializes a new
line item, yet the quote row is returned unchanged — its stored totals are
not recalculated, and recalculating over the enlarged item set would give a
different subtotal than the one left on the quote. -/
theorem claim_C3_cex :
    (detectTextFlow 5 [sofaEntry 35] true scenarioQuoteBig ⟨"pending", none, none, none⟩
        (.resp ⟨true, [⟨some "couch", some 0.95, none, none⟩], none⟩)).2.1 ≠ [] ∧
    (detectTextFlow 5 [sofaEntry 35] true scenarioQuoteBig ⟨"pending", none, none, none⟩
        (.resp ⟨true, [⟨some "couch", some 0.95, none, none⟩], none⟩)).2.2
      = scenarioQuoteBig ∧
    (calculate_quote_pricing
        { scenarioQuoteBig with
            quote_items := scenarioQuoteBig.quote_items ++
              (detectTextFlow 5 [sofaEntry 35] true scenarioQuoteBig
                ⟨"pending", none, none, none⟩
                (.resp ⟨true, [⟨some "couch", some 0.95, none, none⟩], none⟩)).2.1 }
        scenarioRule).subtotal ≠ scenarioQuoteBig.subtotal := by
  refine ⟨by rw [textFlowItems_couch_sofa]; simp, rfl, ?_⟩
  rw [textFlowItems_couch_sofa]
  norm_num [calculate_quote_pricing, computedSubtotal, cubicCost, laborCost, distanceCost,
    totalsOfItems, accumItem, truthy, scenarioQuoteBig, scenarioRule]

/-- C3 amended: on a successful vision result, the `/text` flow with the
auto-add flag and the `/auto` flow (which always auto-adds) materialize as
line items exactly the mapped items with a catalog match and confidence
strictly above the policy threshold (0.7 for text, 0.8 for auto); however,
no pricing recalculation is triggered — the quote row is returned with its
stored totals unchanged. -/
theorem claim_C3 (now : ℕ) (catalog : List ItemCatalog) (quote : Quote)
    (job : DetectionJob) (r : VisionResp) (hs : r.success = true) :
    (detectTextFlow now catalog true quote job (.resp r)).2.1 =
      ((map_detections_to_catalog r.detections catalog).filter
        (fun m => m.catalog_item_id.isSome && decide ((0.7 : ℚ) < m.confidence_score))).map
        mkQuoteItemFromMapped ∧
    (detectAutoFlow now catalog quote job (.resp r)).2.1 =
      ((map_detections_to_catalog r.detections catalog).filter
        (fun m => m.catalog_item_id.isSome && decide ((0.8 : ℚ) < m.confidence_score))).map
        mkQuoteItemFromMapped ∧
    (detectTextFlow now catalog true quote job (.resp r)).2.2 = quote ∧
    (detectAutoFlow now catalog quote job (.resp r)).2.2 = quote := by
  refine ⟨?_, ?_, ?_, ?_⟩ <;>
    simp [detectTextFlow, detectAutoFlow, processDetectionJob, hs, autoAddItems]

/-- Witness for `claim_C3`: the scenario catalog and a successful response. -/
theorem claim_C3_witness :
    (⟨true, [⟨some "couch", some 0.95, none, none⟩], none⟩ : VisionResp).success = true ∧
    (detectTextFlow 5 [sofaEntry 35] true scenarioQuoteBig ⟨"pending", none, none, none⟩
        (.resp ⟨true, [⟨some "couch", some 0.95, none, none⟩], none⟩)).2.2
      = scenarioQuoteBig :=
  ⟨rfl, (claim_C3 5 [sofaEntry 35] scenarioQuoteBig ⟨"pending", none, none, none⟩
    ⟨true, [⟨some "couch", some 0.95, none, none⟩], none⟩ rfl).2.2.1⟩

/-- Evaluation helper: an empty detected label substring-matches the scenario
entry through its aliases at weight 0.7 (Python's `"" in s` is always true). -/
theorem bestMatch_empty_sofa (b : ℚ) :
    bestCatalogMatch "" [sofaEntry b] = (some (sofaEntry b), 0.7) := by
  have h1 : lowerStr "Sofa" = "sofa" := by decide
  have h2 : lowerStr "Couch" = "couch" := by decide
  have h3 : lowerStr "Sectional" = "sectional" := by decide
  have hs1 : subStr "".data "couch".data = true := by decide
  have hs2 : subStr "".data "sectional".data = true := by decide
  have hne : ("sofa" : String) ≠ "" := by decide
  have hne2 : ("couch" : String) ≠ "" := by decide
  have hne3 : ("sectional" : String) ≠ "" := by decide
  simp only [bestCatalogMatch, catalogScan, aliasScan, sofaEntry]
  simp only [h1, h2, h3, hs1, hs2]
  norm_num [hne, hne2, hne3]

/-- C6 counterexample: with the `Sofa` entry (nonempty alias list) in the
catalog, the empty detected label does match — the scan returns that entry
with weight 0.7, and the mapped item carries its catalog id — refuting
"empty/blank detected label yields no match regardless of the catalog". -/
theorem claim_C6_cex :
    bestCatalogMatch "" [sofaEntry 35] = (some (sofaEntry 35), 0.7) ∧
    (map_detections_to_catalog [⟨some "", some 0.5, none, none⟩] [sofaEntry 35]).map
      (fun m => m.catalog_item_id) = [some 1] := by
  refine ⟨bestMatch_empty_sofa 35, ?_⟩
  have hl : lowerStr "" = "" := by decide
  simp only [map_detections_to_catalog, filterActive_sofa, List.map_cons, List.map_nil,
    mapOneDetection, Option.getD_some, hl, bestMatch_empty_sofa]
  simp [sofaEntry]

/-- Scan helper: over catalog entries with no aliases and with names that do
not (case-insensitively) equal the label, the scan never changes its state
from "no candidate". -/
theorem catalogScan_no_alias_no_name :
    ∀ (label : String) (l : List ItemCatalog),
    (∀ e ∈ l, e.aliases = [] ∧ lowerStr e.name ≠ label) →
    catalogScan label l (none, 0) = (none, 0) := by
  intro label l
  induction l with
  | nil => intro _; rfl
  | cons e t ih =>
    intro h
    obtain ⟨ha, hn⟩ := h e (List.mem_cons_self e t)
    have hcond : (lowerStr e.name == label) = false := beq_eq_false_iff_ne.mpr hn
    simp only [catalogScan, hcond, Bool.false_eq_true, if_false, ha, aliasScan]
    exact ih (fun e2 he2 => h e2 (List.mem_cons_of_mem e he2))

/-- C6 amended: a detected label (in particular an empty or blank one) yields
no match provided no active catalog entry has aliases and no active entry's
lower-cased name equals the lower-cased label: the matched entry is `none`,
the weight stays 0, and the mapped item has no catalog id and no resolved
cubic feet.  (With a nonempty alias list present, an empty label does
substring-match at weight 0.7, as the counterexample shows.) -/
theorem claim_C6 (d : Detection) (cat : List ItemCatalog)
    (h : ∀ e ∈ cat, e.is_active = true →
      e.aliases = [] ∧ lowerStr e.name ≠ lowerStr (d.name.getD "")) :
    bestCatalogMatch (lowerStr (d.name.getD "")) (cat.filter (fun e => e.is_active))
      = (none, 0) ∧
    (map_detections_to_catalog [d] cat).map (fun m => m.catalog_item_id) = [none] ∧
    (map_detections_to_catalog [d] cat).map (fun m => m.cubic_feet) = [none] := by
  have hbest : bestCatalogMatch (lowerStr (d.name.getD ""))
      (cat.filter (fun e => e.is_active)) = (none, 0) := by
    refine catalogScan_no_alias_no_name _ _ ?_
    intro e he
    rw [List.mem_filter] at he
    exact h e he.1 he.2
  refine ⟨hbest, ?_, ?_⟩ <;>
    simp [map_detections_to_catalog, mapOneDetection, hbest]

/-- Witness for `claim_C6`: an alias-free catalog and an empty detected
label produce no match. -/
theorem claim_C6_witness :
    bestCatalogMatch (lowerStr ((⟨some "", none, none, none⟩ : Detection).name.getD ""))
      (List.filter (fun e => e.is_active)
        [(⟨2, "Table", [], none, some 10, none, true⟩ : ItemCatalog)]) = (none, 0) := by
  refine (claim_C6 ⟨some "", none, none, none⟩ [⟨2, "Table", [], none, some 10, none, true⟩]
    ?_).1
  intro e he _
  rw [List.mem_singleton] at he
  subst he
  exact ⟨rfl, by decide⟩

/-- C7: for a catalog containing the `Sofa` entry with aliases `Couch` and
`Sectional`, matching the detected label `couch` returns that entry with
match weight exactly 0.9 (case-insensitive alias exact match), and the
mapped item's resolved cubic feet equal the entry's (nonzero)
`base_cubic_feet`. -/
theorem claim_C7 (b : ℚ) (hb : b ≠ 0) :
    bestCatalogMatch "couch" [sofaEntry b] = (some (sofaEntry b), 0.9) ∧
    map_detections_to_catalog [⟨some "couch", some 0.95, none, none⟩] [sofaEntry b] =
      [⟨some "couch", 0.95, 1, none, some 1, some "Sofa", some b, 1, some "Furniture"⟩] := by
  refine ⟨bestMatch_couch_sofa b, ?_⟩
  simp only [map_detections_to_catalog, filterActive_sofa, List.map_cons, List.map_nil]
  rw [mapOne_couch_sofa b hb]

/-- Witness for `claim_C7` at base volume 35. -/
theorem claim_C7_witness :
    (35 : ℚ) ≠ 0 ∧ bestCatalogMatch "couch" [sofaEntry 35] = (some (sofaEntry 35), 0.9) :=
  ⟨by norm_num, (claim_C7 35 (by norm_num)).1⟩

/-- `charsLt` is irreflexive. -/
theorem charsLt_irrefl (l : List Char) : charsLt l l = false := by
  induction l with
  | nil => rfl
  | cons c t ih => simp [charsLt, ih]

/-- `charsLt` is transitive. -/
theorem charsLt_trans : ∀ (a b c : List Char),
    charsLt a b = true → charsLt b c = true → charsLt a c = true := by
  intro a
  induction a with
  | nil =>
    intro b c hab hbc
    cases b with
    | nil => simp [charsLt] at hab
    | cons y ys =>
      cases c with
      | nil => simp [charsLt] at hbc
      | cons z zs => simp [charsLt]
  | cons x xs ih =>
    intro b c hab hbc
    cases b with
    | nil => simp [charsLt] at hab
    | cons y ys =>
      cases c with
      | nil => simp [charsLt] at hbc
      | cons z zs =>
        simp only [charsLt] at hab hbc ⊢
        rcases lt_trichotomy x y with hxy | hxy | hxy
        · rcases lt_trichotomy y z with hyz | hyz | hyz
          · rw [if_pos (lt_trans hxy hyz)]
          · subst hyz
            rw [if_pos hxy]
          · rw [if_neg (asymm hyz), if_pos hyz] at hbc
            exact Bool.noConfusion hbc
        · subst hxy
          rw [if_neg (lt_irrefl x), if_neg (lt_irrefl x)] at hab
          rcases lt_trichotomy x z with hxz | hxz | hxz
          · rw [if_pos hxz]
          · subst hxz
            rw [if_neg (lt_irrefl x), if_neg (lt_irrefl x)] at hbc ⊢
            exact ih ys zs hab hbc
          · rw [if_neg (asymm hxz), if_pos hxz] at hbc
            exact Bool.noConfusion hbc
        · rw [if_neg (asymm hxy), if_pos hxy] at hab
          exact Bool.noConfusion hab

/-- `charsLt` is total: two incomparable lists are equal. -/
theorem charsLt_connex : ∀ (a b : List Char),
    charsLt a b = false → a = b ∨ charsLt b a = true := by
  intro a
  induction a with
  | nil =>
    intro b hab
    cases b with
    | nil => exact Or.inl rfl
    | cons y ys => simp [charsLt] at hab
  | cons x xs ih =>
    intro b hab
    cases b with
    | nil => exact Or.inr rfl
    | cons y ys =>
      simp only [charsLt] at hab ⊢
      rcases lt_trichotomy x y with hxy | hxy | hxy
      · rw [if_pos hxy] at hab
        exact Bool.noConfusion hab
      · subst hxy
        rw [if_neg (lt_irrefl x), if_neg (lt_irrefl x)] at hab
        rcases ih ys hab with h | h
        · exact Or.inl (by rw [h])
        · right
          rw [if_neg (lt_irrefl x), if_neg (lt_irrefl x)]
          exact h
      · right
        rw [if_pos hxy]

/-- The fold computing `maxStr` returns an element of the list. -/
theorem foldl_maxStep_mem : ∀ (xs : List String) (a : String),
    xs.foldl maxStep a ∈ a :: xs := by
  intro xs
  induction xs with
  | nil => intro a; exact List.mem_singleton.mpr rfl
  | cons b t ih =>
    intro a
    rw [List.foldl_cons]
    rcases List.mem_cons.mp (ih (maxStep a b)) with h1 | h1
    · by_cases hc : charsLt a.data b.data = true
      · have hm : maxStep a b = b := by unfold maxStep; rw [if_pos hc]
        rw [hm] at h1 ⊢
        rw [h1]
        exact List.mem_cons_of_mem _ (List.mem_cons_self _ _)
      · have hm : maxStep a b = a := by unfold maxStep; rw [if_neg hc]
        rw [hm] at h1 ⊢
        rw [h1]
        exact List.mem_cons_self _ _
    · exact List.mem_cons_of_mem _ (List.mem_cons_of_mem _ h1)

/-- No element of the list lies strictly above the fold computing `maxStr`. -/
theorem foldl_maxStep_ub : ∀ (xs : List String) (a q : String), q ∈ a :: xs →
    charsLt (xs.foldl maxStep a).data q.data = false := by
  intro xs
  induction xs with
  | nil =>
    intro a q hq
    rw [List.mem_singleton] at hq
    subst hq
    exact charsLt_irrefl _
  | cons b t ih =>
    intro a q hq
    rw [List.foldl_cons]
    have hub : charsLt ((t.foldl maxStep (maxStep a b))).data (maxStep a b).data = false :=
      ih (maxStep a b) (maxStep a b) (List.mem_cons_self _ _)
    rcases List.mem_cons.mp hq with h1 | h1
    · subst h1
      by_cases hc : charsLt q.data b.data = true
      · have hm : maxStep q b = b := by unfold maxStep; rw [if_pos hc]
        rw [hm] at hub ⊢
        by_contra hcon
        rw [Bool.not_eq_false] at hcon
        have := charsLt_trans _ _ _ hcon hc
        rw [this] at hub
        exact Bool.noConfusion hub
      · have hm : maxStep q b = q := by unfold maxStep; rw [if_neg hc]
        rw [hm] at hub ⊢
        exact hub
    · rcases List.mem_cons.mp h1 with h2 | h2
      · subst h2
        by_cases hc : charsLt a.data q.data = true
        · have hm : maxStep a q = q := by unfold maxStep; rw [if_pos hc]
          rw [hm] at hub ⊢
          exact hub
        · have hm : maxStep a q = a := by unfold maxStep; rw [if_neg hc]
          rw [hm] at hub ⊢
          rcases charsLt_connex a.data q.data (by simpa using hc) with heq | hgt
          · rw [← heq]
            exact hub
          · by_contra hcon
            rw [Bool.not_eq_false] at hcon
            have := charsLt_trans _ _ _ hcon hgt
            rw [this] at hub
            exact Bool.noConfusion hub
      · exact ih (maxStep a b) q (List.mem_cons_of_mem _ h2)

/-- Strings with equal character data are equal. -/
theorem strExt {s t : String} (h : s.data = t.data) : s = t := by
  cases s
  cases t
  exact congrArg String.mk h

/-- Character data of an appended string. -/
theorem strData_append (s t : String) : (s ++ t).data = s.data ++ t.data := by
  cases s
  cases t
  rfl

/-- A string's length is the length of its character data. -/
theorem strLength_data (s : String) : s.length = s.data.length := by
  cases s
  rfl

/-- A list is a prefix of itself followed by anything. -/
theorem likeQ_append : ∀ (p t : List Char), likeQ p (p ++ t) = true := by
  intro p t
  induction p with
  | nil => rfl
  | cons c cs ih => simp [likeQ, ih]

/-- Lexicographic comparison ignores a common prefix. -/
theorem charsLt_append_left : ∀ (p x y : List Char),
    charsLt (p ++ x) (p ++ y) = charsLt x y := by
  intro p x y
  induction p with
  | nil => rfl
  | cons c cs ih => simp [charsLt, ih]

/-- The scenario digits parse back to their values. -/
theorem digitVal_digitChar4 : ∀ m, m < 10 → digitVal? (digitChar4 m) = some m := by decide

/-- Digit characters compare like their values. -/
theorem digitChar4_lt : ∀ m, m < 10 → ∀ n, n < 10 →
    ((digitChar4 m < digitChar4 n) ↔ m < n) := by decide

/-- Four-digit form of `pad4` below 10000. -/
theorem pad4_eq_of_le (k : ℕ) (hk : k ≤ 9999) :
    pad4 k = ⟨[digitChar4 (k / 1000), digitChar4 (k / 100 % 10),
      digitChar4 (k / 10 % 10), digitChar4 (k % 10)]⟩ := by
  unfold pad4
  rw [if_pos (by omega)]

/-- Parsing inverts zero-padding below 10000. -/
theorem parseNat?_pad4 (k : ℕ) (hk : k ≤ 9999) : parseNat? (pad4 k) = some k := by
  rw [pad4_eq_of_le k hk]
  have h1 := digitVal_digitChar4 (k / 1000) (by omega)
  have h2 := digitVal_digitChar4 (k / 100 % 10) (by omega)
  have h3 := digitVal_digitChar4 (k / 10 % 10) (by omega)
  have h4 := digitVal_digitChar4 (k % 10) (by omega)
  simp only [parseNat?, parseDigits, h1, h2, h3, h4]
  congr 1
  omega

/-- Zero-padded representations below 10000 compare like their values. -/
theorem pad4_lt (a b : ℕ) (ha : a ≤ 9999) (hb : b ≤ 9999) (hab : a < b) :
    charsLt (pad4 a).data (pad4 b).data = true := by
  rw [pad4_eq_of_le a ha, pad4_eq_of_le b hb]
  simp only [charsLt]
  rcases lt_trichotomy (a / 1000) (b / 1000) with h1 | h1 | h1
  · rw [if_pos ((digitChar4_lt _ (by omega) _ (by omega)).mpr h1)]
  · rw [h1, if_neg (lt_irrefl _), if_neg (lt_irrefl _)]
    rcases lt_trichotomy (a / 100 % 10) (b / 100 % 10) with h2 | h2 | h2
    · rw [if_pos ((digitChar4_lt _ (by omega) _ (by omega)).mpr h2)]
    · rw [h2, if_neg (lt_irrefl _), if_neg (lt_irrefl _)]
      rcases lt_trichotomy (a / 10 % 10) (b / 10 % 10) with h3 | h3 | h3
      · rw [if_pos ((digitChar4_lt _ (by omega) _ (by omega)).mpr h3)]
      · rw [h3, if_neg (lt_irrefl _), if_neg (lt_irrefl _)]
        have h4 : a % 10 < b % 10 := by omega
        rw [if_pos ((digitChar4_lt _ (by omega) _ (by omega)).mpr h4)]
      · exact absurd hab (by omega)
    · exact absurd hab (by omega)
  · exact absurd hab (by omega)

/-- C1 counterexample: two callers whose generator reads interleave before
either commits (schedule read 0, read 1, commit 0, commit 1, starting from a
tenant with no quotes this month) both receive the same quote number
`Q2025100001` — the naive scan-then-format generator hands out duplicates
under concurrency. -/
theorem claim_C1_cex :
    (runGen "Q202510" [.read 0, .read 1, .commit 0, .commit 1] ⟨[], [], []⟩).outs
      = [(1, "Q2025100001"), (0, "Q2025100001")] ∧
    (runGen "Q202510" [.read 0, .read 1, .commit 0, .commit 1] ⟨[], [], []⟩).db
      = ["Q2025100001", "Q2025100001"] := by
  constructor
  · decide
  · decide

/-- C1 amended: in a sequential execution — each generated number committed
before the next generator call reads — the generator never repeats a number:
whenever every existing quote number for the month prefix is the prefix
followed by a 4-digit zero-padded sequence in [1, 9999], the generated
number differs from every existing quote number. -/
theorem claim_C1 (pfx : String) (db : List String)
    (h : ∀ q ∈ db, likeQ pfx.data q.data = true →
      ∃ k, 1 ≤ k ∧ k ≤ 9999 ∧ q = pfx ++ pad4 k) :
    generate_quote_number pfx db ∉ db := by
  intro hmem
  rcases hcase : maxStr (db.filter (fun q => likeQ pfx.data q.data)) with _ | m
  · have hres : generate_quote_number pfx db = pfx ++ pad4 1 := by
      simp only [generate_quote_number, hcase]
    rw [hres] at hmem
    have hlike2 : likeQ pfx.data (pfx ++ pad4 1).data = true := by
      rw [strData_append]
      exact likeQ_append _ _
    have hcand : (pfx ++ pad4 1) ∈ db.filter (fun q => likeQ pfx.data q.data) :=
      List.mem_filter.mpr ⟨hmem, hlike2⟩
    have hnil : db.filter (fun q => likeQ pfx.data q.data) = [] := by
      cases hfil : db.filter (fun q => likeQ pfx.data q.data) with
      | nil => rfl
      | cons x xs =>
        rw [hfil] at hcase
        simp [maxStr] at hcase
    rw [hnil] at hcand
    exact absurd hcand (List.not_mem_nil _)
  · obtain ⟨x, xs, hfil⟩ : ∃ x xs, db.filter (fun q => likeQ pfx.data q.data) = x :: xs := by
      cases hfil : db.filter (fun q => likeQ pfx.data q.data) with
      | nil =>
        rw [hfil] at hcase
        simp [maxStr] at hcase
      | cons x xs => exact ⟨x, xs, rfl⟩
    have hmfold : xs.foldl maxStep x = m := by
      rw [hfil] at hcase
      simp only [maxStr, Option.some.injEq] at hcase
      exact hcase
    have hmmem : m ∈ db.filter (fun q => likeQ pfx.data q.data) := by
      rw [hfil, ← hmfold]
      exact foldl_maxStep_mem xs x
    have hub : ∀ q ∈ db.filter (fun q => likeQ pfx.data q.data),
        charsLt m.data q.data = false := by
      intro q hq
      rw [hfil] at hq
      rw [← hmfold]
      exact foldl_maxStep_ub xs x q hq
    rw [List.mem_filter] at hmmem
    obtain ⟨k, hk1, hk2, hkeq⟩ := h m hmmem.1 hmmem.2
    have hslice : sliceFrom m pfx.length = pad4 k := by
      rw [hkeq]
      apply strExt
      show ((pfx ++ pad4 k).data).drop pfx.length = (pad4 k).data
      rw [strData_append, strLength_data]
      exact List.drop_left _ _
    have hparse : parseNat? (sliceFrom m pfx.length) = some k := by
      rw [hslice]
      exact parseNat?_pad4 k hk2
    have hres : generate_quote_number pfx db = pfx ++ pad4 (k + 1) := by
      simp only [generate_quote_number, hcase, hparse]
    rw [hres] at hmem
    have hlike2 : likeQ pfx.data (pfx ++ pad4 (k + 1)).data = true := by
      rw [strData_append]
      exact likeQ_append _ _
    have hres_cand : (pfx ++ pad4 (k + 1)) ∈ db.filter (fun q => likeQ pfx.data q.data) :=
      List.mem_filter.mpr ⟨hmem, hlike2⟩
    have hub_res : charsLt m.data (pfx ++ pad4 (k + 1)).data = false := hub _ hres_cand
    by_cases hk9 : k + 1 ≤ 9999
    · have hlt : charsLt (pad4 k).data (pad4 (k + 1)).data = true :=
        pad4_lt k (k + 1) hk2 hk9 (by omega)
      have hcontra : charsLt m.data (pfx ++ pad4 (k + 1)).data = true := by
        rw [hkeq, strData_append, strData_append, charsLt_append_left]
        exact hlt
      rw [hcontra] at hub_res
      exact Bool.noConfusion hub_res
    · obtain ⟨k2, hk21, hk22, hk2eq⟩ := h _ hmem hlike2
      have hdata : (pad4 (k + 1)).data = (pad4 k2).data := by
        have hd := congrArg String.data hk2eq
        rw [strData_append, strData_append] at hd
        exact List.append_cancel_left hd
      have hkk : k = 9999 := by omega
      have hlen1 : (pad4 (k + 1)).data.length = 5 := by
        rw [hkk]
        decide
      have hlen2 : (pad4 k2).data.length = 4 := by
        rw [pad4_eq_of_le k2 hk22]
        rfl
      rw [hdata, hlen2] at hlen1
      exact absurd hlen1 (by omega)

/-- Witness for `claim_C1`: one committed quote `Q2025100007`; the next
sequential call generates a number not equal to it. -/
theorem claim_C1_witness :
    generate_quote_number "Q202510" ["Q2025100007"] ∉ ["Q2025100007"] := by
  refine claim_C1 "Q202510" ["Q2025100007"] ?_
  intro q hq _
  rw [List.mem_singleton] at hq
  subst hq
  exact ⟨7, by omega, by omega, by decide⟩

end MoveCRM
